import Mathlib

/-!
Verification of the natural-language specification of the
`JacquelineYu/AI-for-Trading` repository against its code.

The repository consists of three tutorial notebooks:
* a PyTorch training notebook (`src/unnamed/part_000`) whose training loop
  sequences `optimizer.zero_grad()`, the forward pass, the loss computation,
  `loss.backward()` and `optimizer.step()` per batch;
* a PyTorch checkpoint notebook (`src/unnamed/part_001`) that builds a
  checkpoint dictionary, saves it with `torch.save`, and reconstructs a model
  with a `load_checkpoint` helper;
* a zipline pipeline exercise notebook
  (`src/C4_MultiFactorModel/zipline_coding_exercises.ipynb`) that builds a
  pipeline with a dollar-volume screen, a `choose_loader` function, custom
  factors and filters, and runs the pipeline engine.

This file gives a shallow embedding of the data and glue logic of those
notebooks and proves (or refutes) the frozen claims about them.
-/

namespace AIFT

/-! ## Part 1: the PyTorch model and checkpoint embedding

The notebook `src/unnamed/part_001` uses `fc_model.Network(input_size,
output_size, hidden_layers)`; the `fc_model.py` file itself is not in the
sources, but the notebook's printed outputs show its architecture exactly:
`hidden_layers` is a `ModuleList` of `Linear(in, out)` layers chained from
`input_size` through the given hidden sizes, followed by an `output` layer
`Linear(last_hidden, output_size)`.  Parameter tensors are modelled as a
shape together with flat integer data (the numeric values play no role in
any claim; only shapes and equality of tensors do). -/

structure Tensor where
  shape : List Nat
  data : List Int
  deriving Repr, DecidableEq

structure LinearLayer where
  in_features : Nat
  out_features : Nat
  weight : Tensor
  bias : Tensor
  deriving Repr, DecidableEq

structure Network where
  input_size : Nat
  output_size : Nat
  hidden_layers : List LinearLayer
  output : LinearLayer
  deriving Repr, DecidableEq

/-- The per-layer hidden sizes of a model, as the checkpoint cell records
them: `[each.out_features for each in model.hidden_layers]`. -/
def hiddenSizes (m : Network) : List Nat :=
  m.hidden_layers.map (fun L => L.out_features)

/-- Keys of the PyTorch state dict.  `ParamKey.hidden i true` stands for the
string key `hidden_layers.{i}.weight`, `ParamKey.hidden i false` for
`hidden_layers.{i}.bias`, and `ParamKey.output b` for `output.weight` /
`output.bias`, exactly the keys printed by the notebook. -/
inductive ParamKey
  | hidden (i : Nat) (isWeight : Bool)
  | output (isWeight : Bool)
  deriving Repr, DecidableEq

/-- The `hidden_layers.{i}.weight` / `hidden_layers.{i}.bias` entries of the
state dict, starting at layer index `i`. -/
def hiddenEntries : Nat → List LinearLayer → List (ParamKey × Tensor)
  | _, [] => []
  | i, L :: ls =>
      (ParamKey.hidden i true, L.weight) :: (ParamKey.hidden i false, L.bias) ::
        hiddenEntries (i + 1) ls

/-- `model.state_dict()`: the ordered dictionary of named weight and bias
tensors, in the key order printed by the notebook. -/
def Network.state_dict (m : Network) : List (ParamKey × Tensor) :=
  hiddenEntries 0 m.hidden_layers ++
    [(ParamKey.output true, m.output.weight), (ParamKey.output false, m.output.bias)]

/-- The parameter keys `hidden_layers.{i}.weight`, `hidden_layers.{i}.bias`
for `count` layers starting at index `i`. -/
def hiddenKeys : Nat → Nat → List ParamKey
  | _, 0 => []
  | i, count + 1 =>
      ParamKey.hidden i true :: ParamKey.hidden i false :: hiddenKeys (i + 1) count

/-- The parameter keys of a model, in state-dict order. -/
def Network.paramKeys (m : Network) : List ParamKey :=
  hiddenKeys 0 m.hidden_layers.length ++ [ParamKey.output true, ParamKey.output false]

/-- Dictionary lookup in a state dict. -/
def dictLookup (k : ParamKey) : List (ParamKey × Tensor) → Option Tensor
  | [] => none
  | (k2, t) :: rest => if k = k2 then some t else dictLookup k rest

/-- The error messages `load_state_dict` can collect, per the torch source
shown in the notebook traceback: missing keys, unexpected keys, and
`size mismatch for {key}` entries. -/
inductive LoadError
  | missingKey (k : ParamKey)
  | unexpectedKey (k : ParamKey)
  | sizeMismatch (k : ParamKey)
  | badCheckpoint
  deriving Repr, DecidableEq

/-- Copy one parameter from the incoming state dict into a parameter of the
receiving model: a missing key or a shape mismatch produces an error message
and leaves the parameter as it was; a matching shape copies the tensor. -/
def fetchParam (sd : List (ParamKey × Tensor)) (k : ParamKey) (t : Tensor) :
    List LoadError × Tensor :=
  match dictLookup k sd with
  | none => ([LoadError.missingKey k], t)
  | some t2 => if t2.shape = t.shape then ([], t2) else ([LoadError.sizeMismatch k], t)

/-- Load the hidden layers of the receiving model from the state dict,
collecting all error messages. -/
def loadHidden (sd : List (ParamKey × Tensor)) :
    Nat → List LinearLayer → List LoadError × List LinearLayer
  | _, [] => ([], [])
  | i, L :: ls =>
      let rw := fetchParam sd (ParamKey.hidden i true) L.weight
      let rb := fetchParam sd (ParamKey.hidden i false) L.bias
      let rest := loadHidden sd (i + 1) ls
      (rw.1 ++ rb.1 ++ rest.1, { L with weight := rw.2, bias := rb.2 } :: rest.2)

/-- `model.load_state_dict(state_dict)` in strict mode, following the torch
source visible in the notebook traceback: collect the error messages over
all parameters (unexpected keys, missing keys, size mismatches) and raise a
`RuntimeError` carrying them all if any were collected, otherwise return the
model with every parameter tensor copied from the state dict. -/
def Network.load_state_dict (m : Network) (sd : List (ParamKey × Tensor)) :
    Except (List LoadError) Network :=
  let unex := (sd.filter (fun p => decide (p.1 ∉ m.paramKeys))).map
    (fun p => LoadError.unexpectedKey p.1)
  let rh := loadHidden sd 0 m.hidden_layers
  let rw := fetchParam sd (ParamKey.output true) m.output.weight
  let rb := fetchParam sd (ParamKey.output false) m.output.bias
  let errs := unex ++ rh.1 ++ rw.1 ++ rb.1
  if errs = [] then
    Except.ok { m with hidden_layers := rh.2,
                       output := { m.output with weight := rw.2, bias := rb.2 } }
  else Except.error errs

/-- A freshly constructed `nn.Linear(nin, nout)`: weight of shape
`[nout, nin]`, bias of shape `[nout]`.  The initial numeric values are
irrelevant to every claim (they are immediately overwritten on a successful
load), so they are modelled as zeros. -/
def mkLinear (nin nout : Nat) : LinearLayer :=
  { in_features := nin, out_features := nout,
    weight := { shape := [nout, nin], data := List.replicate (nout * nin) 0 },
    bias := { shape := [nout], data := List.replicate nout 0 } }

/-- The chain of hidden `Linear` layers from `nin` through the hidden sizes. -/
def chainLayers : Nat → List Nat → List LinearLayer
  | _, [] => []
  | nin, h :: hs => mkLinear nin h :: chainLayers h hs

/-- The width feeding the output layer: the last hidden size, or the input
size if there are no hidden layers. -/
def lastSize : Nat → List Nat → Nat
  | nin, [] => nin
  | _, h :: hs => lastSize h hs

/-- Modelled from the spec: `fc_model.Network(input_size, output_size,
hidden_layers)`, the model class imported by `src/unnamed/part_001` from the
missing `fc_model.py`.  Its architecture is taken from the notebook's
printed model structure: hidden `Linear` layers chained from `input_size`
through the hidden sizes, then an output layer to `output_size`. -/
def fcNetwork (input output : Nat) (hidden : List Nat) : Network :=
  { input_size := input, output_size := output,
    hidden_layers := chainLayers input hidden,
    output := mkLinear (lastSize input hidden) output }

/-- Internal well-formedness of a tensor: the flat data has as many entries
as the shape prescribes. -/
def Tensor.wfb (t : Tensor) : Bool :=
  decide (t.data.length = t.shape.foldr (fun a b => a * b) 1)

/-- Well-formedness of a `Linear` layer fed by `nin` inputs: the recorded
`in_features` is `nin` and the weight and bias tensors have the shapes
`nn.Linear` gives them. -/
def layerWfb (nin : Nat) (L : LinearLayer) : Bool :=
  decide (L.in_features = nin) && decide (L.weight.shape = [L.out_features, nin]) &&
    decide (L.bias.shape = [L.out_features]) && L.weight.wfb && L.bias.wfb

/-- Well-formedness of the hidden chain: each layer is fed by the previous
layer's `out_features`. -/
def chainWfb : Nat → List LinearLayer → Bool
  | _, [] => true
  | nin, L :: ls => layerWfb nin L && chainWfb L.out_features ls

/-- Well-formedness of a whole model: the layer chain matches the recorded
`input_size`, the output layer is fed by the last hidden width, and its
`out_features` is the recorded `output_size`.  Every model built by
`fcNetwork` satisfies this, as does anything reachable by training it. -/
def Network.wfb (m : Network) : Bool :=
  chainWfb m.input_size m.hidden_layers &&
    layerWfb (lastSize m.input_size (hiddenSizes m)) m.output &&
    decide (m.output.out_features = m.output_size)

/-- The architecture of a model: input size, output size, per-layer hidden
sizes. -/
def archOf (m : Network) : Nat × Nat × List Nat :=
  (m.input_size, m.output_size, hiddenSizes m)

/-- Values stored in the checkpoint dictionary: integers, lists of layer
sizes, or a state dict. -/
inductive CPValue
  | natVal (n : Nat)
  | listVal (ns : List Nat)
  | sdVal (sd : List (ParamKey × Tensor))
  deriving Repr, DecidableEq

/-- Lookup in the checkpoint dictionary. -/
def cpLookup (k : String) : List (String × CPValue) → Option CPValue
  | [] => none
  | (k2, v) :: rest => if k = k2 then some v else cpLookup k rest

/-- The checkpoint dictionary exactly as the notebook cell builds it:
`input_size` and `output_size` are the hardcoded literals `784` and `10`,
`hidden_layers` is `[each.out_features for each in model.hidden_layers]`,
and `state_dict` is `model.state_dict()`. -/
def mkCheckpoint (model : Network) : List (String × CPValue) :=
  [("input_size", CPValue.natVal 784),
   ("output_size", CPValue.natVal 10),
   ("hidden_layers", CPValue.listVal (hiddenSizes model)),
   ("state_dict", CPValue.sdVal model.state_dict)]

/-- `torch.save(checkpoint, filepath)`: serialization is modelled as the
identity on the saved value (the external serializer is assumed faithful). -/
def torch_save (cp : List (String × CPValue)) : List (String × CPValue) := cp

/-- `torch.load(filepath)`: inverse of `torch_save`. -/
def torch_load (file : List (String × CPValue)) : List (String × CPValue) := file

/-- The notebook's `load_checkpoint(filepath)` helper: load the checkpoint,
rebuild `fc_model.Network(checkpoint[input_size], checkpoint[output_size],
checkpoint[hidden_layers])`, and load the saved state dict into it. -/
def load_checkpoint (filepath : List (String × CPValue)) : Except (List LoadError) Network :=
  let checkpoint := torch_load filepath
  match cpLookup "input_size" checkpoint, cpLookup "output_size" checkpoint,
        cpLookup "hidden_layers" checkpoint, cpLookup "state_dict" checkpoint with
  | some (CPValue.natVal i), some (CPValue.natVal o),
      some (CPValue.listVal hs), some (CPValue.sdVal sd) =>
      (fcNetwork i o hs).load_state_dict sd
  | _, _, _, _ => Except.error [LoadError.badCheckpoint]

/-- Whether an `Except` completed without raising. -/
def isOkE {ε α : Type} : Except ε α → Bool
  | Except.ok _ => true
  | Except.error _ => false

/-! ## Part 2: the training loop of `src/unnamed/part_000`

The loop body (lines 571-588) runs, for each epoch and each batch:
flatten the images, `optimizer.zero_grad()`, the forward pass
`output = model(images)`, `loss = criterion(output, labels)`,
`loss.backward()`, `optimizer.step()`, and `running_loss += loss.item()`.
The sequencing claims are settled over the event trace this loop emits;
batch passes are identified by their global iteration number. -/

inductive Event
  | flatten (b : Nat)
  | zero_grad
  | forward (b : Nat)
  | loss (b : Nat)
  | backward (b : Nat)
  | step
  | accum (b : Nat)
  deriving Repr, DecidableEq

/-- The events of one pass of the training loop body, in source order. -/
def batchPass (b : Nat) : List Event :=
  [Event.flatten b, Event.zero_grad, Event.forward b, Event.loss b,
   Event.backward b, Event.step, Event.accum b]

/-- The trace of the inner `for images, labels in trainloader` loop during
one epoch whose first iteration has global number `base`. -/
def epochTrace (base n : Nat) : List Event :=
  ((List.range n).map (fun i => batchPass (base + i))).flatten

/-- The trace of the whole `for e in range(epochs)` training loop with `n`
batches per epoch. -/
def trainTrace (epochs n : Nat) : List Event :=
  ((List.range epochs).map (fun e => epochTrace (e * n) n)).flatten

/-- The same trace flattened to a single recursion over the total number of
batch passes, starting at global iteration `s`. -/
def flatTrace : Nat → Nat → List Event
  | _, 0 => []
  | s, m + 1 => batchPass s ++ flatTrace (s + 1) m

/-- The gradient bookkeeping of the optimizer: `grads` lists which
iterations' backward passes are currently accumulated in the parameter
gradients, and `applied` records, for each `optimizer.step()` in order, the
accumulated gradient set it consumed. -/
structure OptState where
  grads : List Nat
  applied : List (List Nat)
  deriving Repr, DecidableEq

/-- Effect of one event on the optimizer state: `zero_grad` clears the
accumulated gradients, `backward b` accumulates iteration `b`'s gradient
(PyTorch accumulates gradients across backward passes), `step` consumes the
currently accumulated gradients, and everything else leaves them alone. -/
def stepEvent (s : OptState) (e : Event) : OptState :=
  match e with
  | Event.zero_grad => { s with grads := [] }
  | Event.backward b => { s with grads := s.grads ++ [b] }
  | Event.step => { s with applied := s.applied ++ [s.grads] }
  | _ => s

/-- Run a trace of events over an optimizer state. -/
def execTrace (s : OptState) (tr : List Event) : OptState :=
  tr.foldl stepEvent s

/-! ## Part 3: the zipline pipeline notebook -/

/-- The column names of the external `USEquityPricing` dataset (`open`,
`high`, `low`, `close`, `volume`); `choose_loader` only tests membership in
this set. -/
def pricingColumns : List String := ["open", "high", "low", "close", "volume"]

/-- The loaders in scope in the notebook: only `pricing_loader`, the
`USEquityPricingLoader` built from the data bundle. -/
inductive Loader
  | pricing
  deriving Repr, DecidableEq

/-- The notebook's `choose_loader(column)` (repository code): raise
`Exception('Column not in USEquityPricing')` if the column is not in
`USEquityPricing.columns`, otherwise return `pricing_loader`. -/
def choose_loader (column : String) : Except String Loader :=
  if column ∉ pricingColumns then Except.error "Column not in USEquityPricing"
  else Except.ok Loader.pricing

/-- The pricing data the pipeline engine computes over: a list of assets and
their daily closing prices and volumes, indexed by session number. -/
structure Market where
  assets : List String
  close : String → Nat → ℚ
  volume : String → Nat → ℚ

/-- The factor expressions the notebook builds: built-in factors and the
arithmetic combinations used for `percent_difference`. -/
inductive FactorExpr
  | averageDollarVolume (window : Nat)
  | simpleMovingAverage (window : Nat)
  | dailyReturns
  | latestClose
  | subF (f g : FactorExpr)
  | divF (f g : FactorExpr)
  deriving Repr, DecidableEq

/-- The filter expressions the notebook builds: a factor compared against a
constant, `AverageDollarVolume(...).top(n)`, and conjunction via `&`. -/
inductive FilterExpr
  | gtC (f : FactorExpr) (c : ℚ)
  | topN (f : FactorExpr) (n : Nat)
  | andF (f g : FilterExpr)
  deriving Repr, DecidableEq

/-- Sum of `f` over the `w`-session window ending at session `d`. -/
def windowSum (f : Nat → ℚ) (d w : Nat) : ℚ :=
  ((List.range w).map (fun i => f (d - i))).foldr (fun a b => a + b) 0

/-- Modelled from the spec: evaluation of the external pipeline engine's
factors (`AverageDollarVolume`, `SimpleMovingAverage`, `DailyReturns`,
`USEquityPricing.close.latest`, and factor arithmetic) for one asset on one
session, from the spec's description of custom factor composition via
arithmetic operators over trailing windows of the pricing data. -/
def evalFactor (env : Market) : FactorExpr → String → Nat → ℚ
  | FactorExpr.averageDollarVolume w, a, d =>
      windowSum (fun t => env.close a t * env.volume a t) d w / w
  | FactorExpr.simpleMovingAverage w, a, d => windowSum (fun t => env.close a t) d w / w
  | FactorExpr.dailyReturns, a, d => env.close a d / env.close a (d - 1) - 1
  | FactorExpr.latestClose, a, d => env.close a d
  | FactorExpr.subF f g, a, d => evalFactor env f a d - evalFactor env g a d
  | FactorExpr.divF f g, a, d => evalFactor env f a d / evalFactor env g a d

/-- The 30-day average dollar volume and friends, as plain numbers. -/
def avgDollarVolume (env : Market) (w : Nat) (a : String) (d : Nat) : ℚ :=
  windowSum (fun t => env.close a t * env.volume a t) d w / w

/-- Membership in the top `n` assets of the universe ranked (descending) by
`val`: fewer than `n` assets score strictly higher. -/
def amongTop (env : Market) (n : Nat) (val : String → ℚ) (a : String) : Prop :=
  a ∈ env.assets ∧
    (env.assets.filter (fun b => decide (val a < val b))).length < n

/-- Modelled from the spec: evaluation of the external pipeline engine's
filters (comparison filters, `.top(n)` membership, `&` conjunction) for one
asset on one session. -/
def evalFilter (env : Market) : FilterExpr → String → Nat → Bool
  | FilterExpr.gtC f c, a, d => decide (c < evalFactor env f a d)
  | FilterExpr.topN f n, a, d =>
      decide (a ∈ env.assets) &&
        decide ((env.assets.filter
          (fun b => decide (evalFactor env f a d < evalFactor env f b d))).length < n)
  | FilterExpr.andF f g, a, d => evalFilter env f a d && evalFilter env g a d

/-- The notebook's screen: `AverageDollarVolume(window_length = 60) > 50000`
(bound to the name `universe` in the source). -/
def universeScreen : FilterExpr :=
  FilterExpr.gtC (FactorExpr.averageDollarVolume 60) 50000

/-- `mean_close_30 = SimpleMovingAverage(inputs = [USEquityPricing.close],
window_length = 30)`. -/
def mean_close_30 : FactorExpr := FactorExpr.simpleMovingAverage 30

/-- `mean_close_60`, the 60-day average closing price factor. -/
def mean_close_60 : FactorExpr := FactorExpr.simpleMovingAverage 60

/-- `percent_difference = (mean_close_30 - mean_close_60)/mean_close_60`. -/
def percent_difference : FactorExpr :=
  FactorExpr.divF (FactorExpr.subF mean_close_30 mean_close_60) mean_close_60

/-- `daily_ret = DailyReturns(inputs=[USEquityPricing.close])`. -/
def daily_ret : FactorExpr := FactorExpr.dailyReturns

/-- `top_20 = AverageDollarVolume(window_length = 30).top(20)`. -/
def top_20 : FilterExpr := FilterExpr.topN (FactorExpr.averageDollarVolume 30) 20

/-- `above_30 = USEquityPricing.close.latest > 30`. -/
def above_30 : FilterExpr := FilterExpr.gtC FactorExpr.latestClose 30

/-- `tradable_asset = top_20 & above_30`. -/
def tradable_asset : FilterExpr := FilterExpr.andF top_20 above_30

/-- A pipeline term added as a column: a factor or a filter. -/
inductive PipeTerm
  | factorT (f : FactorExpr)
  | filterT (f : FilterExpr)
  deriving Repr, DecidableEq

/-- A zipline pipeline: named columns (in insertion order) and an optional
screen. -/
structure Pipeline where
  columns : List (String × PipeTerm)
  screen : Option FilterExpr
  deriving Repr, DecidableEq

/-- `Pipeline.add(term, name, overwrite)`, following the zipline source shown
in the notebook traceback: if the name is already a column, raise
`KeyError("Column already exists.")` unless `overwrite` is set (in which
case the old column is removed first); otherwise assign the column. -/
def Pipeline.add (p : Pipeline) (term : PipeTerm) (name : String) (overwrite : Bool) :
    Except String Pipeline :=
  if name ∈ p.columns.map Prod.fst then
    if overwrite then
      Except.ok { p with columns :=
        (p.columns.filter (fun kv => decide (kv.1 ≠ name))) ++ [(name, term)] }
    else Except.error "Column already exists."
  else Except.ok { p with columns := p.columns ++ [(name, term)] }

/-- `pipeline = Pipeline(screen = universe)`, the empty pipeline built with
the dollar-volume screen. -/
def pipelineScreened : Pipeline := { columns := [], screen := some universeScreen }

/-- A value in one cell of the pipeline output: numeric for factors, boolean
for filters. -/
inductive CellValue
  | num (q : ℚ)
  | flag (b : Bool)
  deriving Repr, DecidableEq

/-- Evaluate one pipeline column for one asset on one session. -/
def evalTerm (env : Market) (t : PipeTerm) (a : String) (d : Nat) : CellValue :=
  match t with
  | PipeTerm.factorT f => CellValue.num (evalFactor env f a d)
  | PipeTerm.filterT f => CellValue.flag (evalFilter env f a d)

/-- One row of the tabular date-by-asset pipeline output. -/
structure Row where
  date : Nat
  asset : String
  cells : List (String × CellValue)
  deriving Repr, DecidableEq

/-- Whether an asset passes the pipeline's screen on a session: with no
screen every asset passes. -/
def passesScreen (env : Market) (s : Option FilterExpr) (a : String) (d : Nat) : Bool :=
  match s with
  | none => true
  | some f => evalFilter env f a d

/-- Modelled from the spec: `engine.run_pipeline(pipeline, start_date,
end_date)` of the external zipline engine, from the spec's description of a
pipeline run producing a tabular date-by-asset output — one row per session
in the range and per asset passing the boolean screen on that session, with
one cell per added column. -/
def run_pipeline (env : Market) (p : Pipeline) (startd endd : Nat) : List Row :=
  ((List.range' startd (endd + 1 - startd)).map (fun d =>
      (env.assets.filter (fun a => passesScreen env p.screen a d)).map (fun a =>
        { date := d, asset := a,
          cells := p.columns.map (fun c => (c.1, evalTerm env c.2 a d)) }))).flatten

/-! ## Concrete instances used by counterexamples and witnesses -/

/-- The checkpointed model of the notebook's shape-mismatch cell:
`fc_model.Network(784, 10, [512, 256, 128])`. -/
def model512 : Network := fcNetwork 784 10 [512, 256, 128]

/-- The differently-sized receiving model of the notebook's shape-mismatch
cell: `fc_model.Network(784, 10, [400, 200, 100])`. -/
def model400 : Network := fcNetwork 784 10 [400, 200, 100]

/-- A well-formed trained model whose input size is not the hardcoded `784`
of the checkpoint cell. -/
def cexModel : Network := fcNetwork 3 10 [2]

/-- A small well-formed model with the hardcoded checkpoint metadata sizes. -/
def wnet784 : Network := fcNetwork 784 10 [2]

/-- A small well-formed model used to exercise `load_state_dict`. -/
def wnetA : Network := fcNetwork 2 3 [2]

/-- A one-asset market with constant price 100 and constant volume 1000, so
the 60-day average dollar volume is 100000. -/
def market1 : Market :=
  { assets := ["AAPL"], close := fun _ _ => 100, volume := fun _ _ => 1000 }

/-- The single output row of running the screened empty pipeline over
`market1` on session 0. -/
def row1 : Row := { date := 0, asset := "AAPL", cells := [] }

/-- A pipeline that already carries the `custom factor` column. -/
def pipeExample : Pipeline :=
  { columns := [("custom factor", PipeTerm.factorT percent_difference)],
    screen := some universeScreen }

/-! ## Lemmas about the state dict as a dictionary -/

lemma dictLookup_append_of_some {k : ParamKey} {l1 : List (ParamKey × Tensor)}
    (l2 : List (ParamKey × Tensor)) {t : Tensor} (h : dictLookup k l1 = some t) :
    dictLookup k (l1 ++ l2) = some t := by
  induction l1 with
  | nil => simp [dictLookup] at h
  | cons p l1 ih =>
    obtain ⟨k2, t2⟩ := p
    by_cases hk : k = k2
    · simpa [dictLookup, hk] using h
    · rw [dictLookup] at h
      rw [List.cons_append, dictLookup]
      simp only [if_neg hk] at h ⊢
      exact ih h

lemma dictLookup_append_of_none {k : ParamKey} {l1 : List (ParamKey × Tensor)}
    (l2 : List (ParamKey × Tensor)) (h : dictLookup k l1 = none) :
    dictLookup k (l1 ++ l2) = dictLookup k l2 := by
  induction l1 with
  | nil => simp
  | cons p l1 ih =>
    obtain ⟨k2, t2⟩ := p
    by_cases hk : k = k2
    · simp [dictLookup, hk] at h
    · rw [dictLookup] at h
      rw [List.cons_append, dictLookup]
      simp only [if_neg hk] at h ⊢
      exact ih h

lemma dictLookup_hiddenEntries (ls : List LinearLayer) (s j : Nat) (b : Bool) :
    dictLookup (ParamKey.hidden (s + j) b) (hiddenEntries s ls)
      = (ls[j]?).map (fun L => if b then L.weight else L.bias) := by
  induction ls generalizing s j with
  | nil => simp [hiddenEntries, dictLookup]
  | cons L ls ih =>
    cases j with
    | zero => cases b <;> simp [hiddenEntries, dictLookup]
    | succ j =>
      have hne : s + (j + 1) ≠ s := by omega
      have hshift : s + (j + 1) = (s + 1) + j := by omega
      rw [hiddenEntries, dictLookup, dictLookup]
      rw [if_neg (by simp [ParamKey.hidden.injEq, hne]),
          if_neg (by simp [ParamKey.hidden.injEq, hne])]
      rw [hshift, ih (s + 1) j]
      simp

lemma dictLookup_hiddenEntries_output (ls : List LinearLayer) (s : Nat) (b : Bool) :
    dictLookup (ParamKey.output b) (hiddenEntries s ls) = none := by
  induction ls generalizing s with
  | nil => simp [hiddenEntries, dictLookup]
  | cons L ls ih => simp [hiddenEntries, dictLookup, ih]

lemma dictLookup_state_dict_hidden (m : Network) (j : Nat) (b : Bool) :
    dictLookup (ParamKey.hidden j b) m.state_dict
      = (m.hidden_layers[j]?).map (fun L => if b then L.weight else L.bias) := by
  have h := dictLookup_hiddenEntries m.hidden_layers 0 j b
  rw [Nat.zero_add] at h
  rw [Network.state_dict]
  cases hj : m.hidden_layers[j]? with
  | some L =>
    rw [hj] at h
    rw [dictLookup_append_of_some _ h]
    simp
  | none =>
    rw [hj] at h
    rw [dictLookup_append_of_none _ (by simpa using h)]
    simp [dictLookup]

lemma dictLookup_state_dict_output (m : Network) (b : Bool) :
    dictLookup (ParamKey.output b) m.state_dict
      = some (if b then m.output.weight else m.output.bias) := by
  rw [Network.state_dict,
      dictLookup_append_of_none _ (dictLookup_hiddenEntries_output m.hidden_layers 0 b)]
  cases b <;> simp [dictLookup]

lemma dictLookup_some_mem_keys {k : ParamKey} {l : List (ParamKey × Tensor)} {t : Tensor}
    (h : dictLookup k l = some t) : k ∈ l.map Prod.fst := by
  induction l with
  | nil => simp [dictLookup] at h
  | cons p l ih =>
    obtain ⟨k2, t2⟩ := p
    by_cases hk : k = k2
    · simp [hk]
    · rw [dictLookup, if_neg hk] at h
      simp [ih h]

/-! ## Lemmas about parameter keys -/

lemma hiddenEntries_keys (ls : List LinearLayer) (s : Nat) :
    (hiddenEntries s ls).map Prod.fst = hiddenKeys s ls.length := by
  induction ls generalizing s with
  | nil => simp [hiddenEntries, hiddenKeys]
  | cons L ls ih => simp [hiddenEntries, hiddenKeys, ih]

lemma state_dict_keys (m : Network) : m.state_dict.map Prod.fst = m.paramKeys := by
  simp [Network.state_dict, Network.paramKeys, hiddenEntries_keys]

lemma mem_hiddenKeys (n : Nat) (s j : Nat) (b : Bool) :
    ParamKey.hidden j b ∈ hiddenKeys s n ↔ s ≤ j ∧ j < s + n := by
  induction n generalizing s with
  | zero =>
    simp [hiddenKeys]
  | succ n ih =>
    rw [hiddenKeys]
    simp only [List.mem_cons, ParamKey.hidden.injEq, ih (s + 1)]
    cases b <;> simp <;> omega

lemma mem_paramKeys_hidden (m : Network) (j : Nat) (b : Bool) :
    ParamKey.hidden j b ∈ m.paramKeys ↔ j < m.hidden_layers.length := by
  simp [Network.paramKeys, mem_hiddenKeys]

/-! ## Well-formedness decompositions -/

lemma layerWfb_iff (nin : Nat) (L : LinearLayer) :
    layerWfb nin L = true ↔
      L.in_features = nin ∧ L.weight.shape = [L.out_features, nin] ∧
        L.bias.shape = [L.out_features] ∧ L.weight.wfb = true ∧ L.bias.wfb = true := by
  simp [layerWfb, Bool.and_eq_true, and_assoc]

lemma chainWfb_cons (nin : Nat) (L : LinearLayer) (ls : List LinearLayer) :
    chainWfb nin (L :: ls) = true ↔
      layerWfb nin L = true ∧ chainWfb L.out_features ls = true := by
  simp [chainWfb, Bool.and_eq_true]

lemma network_wfb_iff (m : Network) :
    m.wfb = true ↔
      chainWfb m.input_size m.hidden_layers = true ∧
        layerWfb (lastSize m.input_size (hiddenSizes m)) m.output = true ∧
        m.output.out_features = m.output_size := by
  simp [Network.wfb, Bool.and_eq_true, and_assoc]

lemma chainLayers_length (nin : Nat) (hs : List Nat) :
    (chainLayers nin hs).length = hs.length := by
  induction hs generalizing nin with
  | nil => rfl
  | cons h hs ih => simp [chainLayers, ih]

/-! ## The save / load round trip -/

lemma fetchParam_found {sd : List (ParamKey × Tensor)} {k : ParamKey} {t t2 : Tensor}
    (h : dictLookup k sd = some t2) (hs : t2.shape = t.shape) :
    fetchParam sd k t = ([], t2) := by
  unfold fetchParam
  rw [h]
  simp [hs]

lemma loadHidden_roundtrip (sd : List (ParamKey × Tensor)) (ls : List LinearLayer)
    (s nin : Nat) (hch : chainWfb nin ls = true)
    (hlook : ∀ j b, dictLookup (ParamKey.hidden (s + j) b) sd
      = (ls[j]?).map (fun L => if b then L.weight else L.bias)) :
    loadHidden sd s (chainLayers nin (ls.map (fun L => L.out_features))) = ([], ls) := by
  induction ls generalizing s nin with
  | nil => simp [chainLayers, loadHidden]
  | cons L ls ih =>
    rw [chainWfb_cons] at hch
    obtain ⟨hL, hch⟩ := hch
    rw [layerWfb_iff] at hL
    have hw : dictLookup (ParamKey.hidden s true) sd = some L.weight := by
      have := hlook 0 true
      simpa using this
    have hb : dictLookup (ParamKey.hidden s false) sd = some L.bias := by
      have := hlook 0 false
      simpa using this
    have hrest := ih (s + 1) L.out_features hch (fun j b => by
      have := hlook (j + 1) b
      rw [show s + (j + 1) = (s + 1) + j by omega] at this
      simpa using this)
    have hfw : fetchParam sd (ParamKey.hidden s true) (mkLinear nin L.out_features).weight
        = ([], L.weight) := fetchParam_found hw (by simp [mkLinear, hL.2.1])
    have hfb : fetchParam sd (ParamKey.hidden s false) (mkLinear nin L.out_features).bias
        = ([], L.bias) := fetchParam_found hb (by simp [mkLinear, hL.2.2.1])
    rw [List.map_cons, chainLayers, loadHidden]
    rw [hfw, hfb, hrest]
    refine Prod.ext rfl ?_
    simp only
    congr 1
    cases L with
    | mk i o w b =>
      simp only at hL
      simp [mkLinear, hL.1]

lemma load_state_dict_roundtrip (m : Network) (hwf : m.wfb = true) :
    (fcNetwork m.input_size m.output_size (hiddenSizes m)).load_state_dict m.state_dict
      = Except.ok m := by
  rw [network_wfb_iff] at hwf
  obtain ⟨hch, hout, hos⟩ := hwf
  rw [layerWfb_iff] at hout
  have hlen : (chainLayers m.input_size (hiddenSizes m)).length = m.hidden_layers.length := by
    rw [chainLayers_length]
    simp [hiddenSizes]
  have hfilter :
      (m.state_dict.filter (fun p =>
        decide (p.1 ∉ (fcNetwork m.input_size m.output_size (hiddenSizes m)).paramKeys)))
        = [] := by
    rw [List.filter_eq_nil_iff]
    intro p hp
    have hmem : p.1 ∈ m.paramKeys := by
      have := List.mem_map_of_mem Prod.fst hp
      rwa [state_dict_keys] at this
    have : (fcNetwork m.input_size m.output_size (hiddenSizes m)).paramKeys
        = m.paramKeys := by
      simp [Network.paramKeys, fcNetwork, hlen]
    simp [this, hmem]
  have hrh : loadHidden m.state_dict 0
      (chainLayers m.input_size (m.hidden_layers.map (fun L => L.out_features)))
      = ([], m.hidden_layers) :=
    loadHidden_roundtrip m.state_dict m.hidden_layers 0 m.input_size hch
      (fun j b => by simpa using dictLookup_state_dict_hidden m j b)
  have hrw : fetchParam m.state_dict (ParamKey.output true)
      (mkLinear (lastSize m.input_size (hiddenSizes m)) m.output_size).weight
      = ([], m.output.weight) :=
    fetchParam_found (by simpa using dictLookup_state_dict_output m true)
      (by simp [mkLinear, hout.2.1, hos])
  have hrb : fetchParam m.state_dict (ParamKey.output false)
      (mkLinear (lastSize m.input_size (hiddenSizes m)) m.output_size).bias
      = ([], m.output.bias) :=
    fetchParam_found (by simpa using dictLookup_state_dict_output m false)
      (by simp [mkLinear, hout.2.2.1, hos])
  rw [Network.load_state_dict]
  simp only [fcNetwork, hiddenSizes] at hfilter hrh hrw hrb ⊢
  rw [hfilter, hrh, hrw, hrb]
  simp only [List.map_nil, List.nil_append, List.append_nil, if_pos rfl]
  cases m with
  | mk i o hl out =>
    simp only [hiddenSizes] at hout
    cases out with
    | mk oi oo ow ob =>
      simp only at hout hos
      simp [mkLinear, hout.1, hos]

/-! ## Loading succeeds only between equal architectures -/

lemma fetchParam_fst_nil {sd : List (ParamKey × Tensor)} {k : ParamKey} {t : Tensor}
    (h : (fetchParam sd k t).1 = []) :
    ∃ t2, dictLookup k sd = some t2 ∧ t2.shape = t.shape := by
  unfold fetchParam at h
  cases hl : dictLookup k sd with
  | none => rw [hl] at h; simp at h
  | some t2 =>
    rw [hl] at h
    by_cases hs : t2.shape = t.shape
    · exact ⟨t2, rfl, hs⟩
    · simp [hs] at h

lemma loadHidden_fst_nil {sd : List (ParamKey × Tensor)} :
    ∀ (ls : List LinearLayer) (s : Nat), (loadHidden sd s ls).1 = [] →
      ∀ j (hj : j < ls.length),
        (fetchParam sd (ParamKey.hidden (s + j) true) (ls.get ⟨j, hj⟩).weight).1 = [] ∧
        (fetchParam sd (ParamKey.hidden (s + j) false) (ls.get ⟨j, hj⟩).bias).1 = [] := by
  intro ls
  induction ls with
  | nil => intro s _ j hj; simp at hj
  | cons L ls ih =>
    intro s h j hj
    rw [loadHidden] at h
    simp only [List.append_eq_nil] at h
    obtain ⟨⟨hw, hb⟩, hrest⟩ := h
    cases j with
    | zero => simpa using ⟨hw, hb⟩
    | succ j =>
      have := ih (s + 1) hrest j (by simpa using Nat.lt_of_succ_lt_succ hj)
      rw [show (s + 1) + j = s + (j + 1) by omega] at this
      simpa using this

lemma chain_arch_eq :
    ∀ (ls ls2 : List LinearLayer) (nin nin2 : Nat),
      chainWfb nin ls = true → chainWfb nin2 ls2 = true →
      ls.length = ls2.length →
      (∀ j (hj : j < ls.length) (hj2 : j < ls2.length),
          (ls.get ⟨j, hj⟩).weight.shape = (ls2.get ⟨j, hj2⟩).weight.shape) →
      ls.map (fun L => L.out_features) = ls2.map (fun L => L.out_features) ∧
        (0 < ls.length → nin = nin2) := by
  intro ls
  induction ls with
  | nil =>
    intro ls2 nin nin2 _ _ hlen _
    have : ls2 = [] := List.eq_nil_of_length_eq_zero hlen.symm
    subst this
    simp
  | cons L ls ih =>
    intro ls2 nin nin2 hch hch2 hlen hsh
    cases ls2 with
    | nil => simp at hlen
    | cons L2 ls2 =>
      rw [chainWfb_cons] at hch hch2
      obtain ⟨hL, hch⟩ := hch
      obtain ⟨hL2, hch2⟩ := hch2
      rw [layerWfb_iff] at hL hL2
      have h0 := hsh 0 (by simp) (by simp)
      simp only [List.get] at h0
      rw [hL.2.1, hL2.2.1] at h0
      simp only [List.cons.injEq] at h0
      obtain ⟨hout, hnin, -⟩ := h0
      have htail := ih ls2 L.out_features L2.out_features hch hch2 (by simpa using hlen)
        (fun j hj hj2 => by
          have := hsh (j + 1) (by simpa using Nat.succ_lt_succ hj)
            (by simpa using Nat.succ_lt_succ hj2)
          simpa using this)
      refine ⟨?_, fun _ => hnin⟩
      simp only [List.map_cons, hout, htail.1]

lemma load_ok_arch (m m2 : Network) (h1 : m.wfb = true) (h2 : m2.wfb = true)
    (hok : isOkE (m.load_state_dict m2.state_dict) = true) :
    archOf m = archOf m2 := by
  rw [network_wfb_iff] at h1 h2
  obtain ⟨hmch, hmout, hmos⟩ := h1
  obtain ⟨h2ch, h2out, h2os⟩ := h2
  rw [layerWfb_iff] at hmout h2out
  simp only [Network.load_state_dict] at hok
  by_cases herrs :
      ((m2.state_dict.filter (fun p => decide (p.1 ∉ m.paramKeys))).map
        (fun p => LoadError.unexpectedKey p.1)) ++
      (loadHidden m2.state_dict 0 m.hidden_layers).1 ++
      (fetchParam m2.state_dict (ParamKey.output true) m.output.weight).1 ++
      (fetchParam m2.state_dict (ParamKey.output false) m.output.bias).1 = []
  case neg => rw [if_neg herrs] at hok; simp [isOkE] at hok
  simp only [List.append_eq_nil] at herrs
  obtain ⟨⟨⟨hunex, hload⟩, hw⟩, -⟩ := herrs
  -- the output layer shapes match, giving equal output sizes and equal
  -- widths feeding the output layer
  obtain ⟨t2, hlk, hshape⟩ := fetchParam_fst_nil hw
  rw [show dictLookup (ParamKey.output true) m2.state_dict = some m2.output.weight from by
    simpa using dictLookup_state_dict_output m2 true] at hlk
  simp only [Option.some.injEq] at hlk
  subst hlk
  rw [hmout.2.1, h2out.2.1] at hshape
  simp only [List.cons.injEq] at hshape
  obtain ⟨houtf, hlast, -⟩ := hshape
  -- every state-dict key is a key of the receiving model
  have hkeys : ∀ k, k ∈ m2.state_dict.map Prod.fst → k ∈ m.paramKeys := by
    intro k hk
    rw [List.map_eq_nil_iff] at hunex
    rw [List.filter_eq_nil_iff] at hunex
    obtain ⟨p, hp, rfl⟩ := List.mem_map.mp hk
    have := hunex p hp
    simpa using this
  -- the two hidden chains have the same length
  have hle : m.hidden_layers.length ≤ m2.hidden_layers.length := by
    by_contra hlt
    push_neg at hlt
    obtain ⟨hfw, -⟩ := loadHidden_fst_nil m.hidden_layers 0 hload
      m2.hidden_layers.length hlt
    obtain ⟨t2, hlk, -⟩ := fetchParam_fst_nil hfw
    rw [Nat.zero_add, dictLookup_state_dict_hidden] at hlk
    rw [List.getElem?_eq_none (Nat.le_refl _)] at hlk
    simp at hlk
  have hge : m2.hidden_layers.length ≤ m.hidden_layers.length := by
    by_contra hlt
    push_neg at hlt
    have hsome : dictLookup (ParamKey.hidden m.hidden_layers.length true) m2.state_dict
        = some (m2.hidden_layers.get ⟨m.hidden_layers.length, hlt⟩).weight := by
      rw [dictLookup_state_dict_hidden, List.getElem?_eq_getElem hlt]
      simp [List.get]
    have hmem := hkeys _ (dictLookup_some_mem_keys hsome)
    rw [mem_paramKeys_hidden] at hmem
    omega
  have hlen : m.hidden_layers.length = m2.hidden_layers.length := Nat.le_antisymm hle hge
  -- the hidden layer shapes match pointwise
  have hshapes : ∀ j (hj : j < m.hidden_layers.length) (hj2 : j < m2.hidden_layers.length),
      (m.hidden_layers.get ⟨j, hj⟩).weight.shape
        = (m2.hidden_layers.get ⟨j, hj2⟩).weight.shape := by
    intro j hj hj2
    obtain ⟨hfw, -⟩ := loadHidden_fst_nil m.hidden_layers 0 hload j hj
    obtain ⟨t2, hlk, hsh⟩ := fetchParam_fst_nil hfw
    rw [Nat.zero_add, dictLookup_state_dict_hidden, List.getElem?_eq_getElem hj2] at hlk
    simp at hlk
    subst hlk
    rw [← hsh]
    simp [List.get]
  have harch := chain_arch_eq m.hidden_layers m2.hidden_layers
    m.input_size m2.input_size hmch h2ch hlen hshapes
  have hsizes : hiddenSizes m = hiddenSizes m2 := harch.1
  have hin : m.input_size = m2.input_size := by
    cases hnil : m.hidden_layers with
    | nil =>
      have hnil2 : m2.hidden_layers = [] := List.eq_nil_of_length_eq_zero (by
        rw [← hlen, hnil]; rfl)
      have e1 : hiddenSizes m = [] := by simp [hiddenSizes, hnil]
      have e2 : hiddenSizes m2 = [] := by simp [hiddenSizes, hnil2]
      rw [e1] at hlast
      rw [e2] at hlast
      simpa [lastSize] using hlast.symm
    | cons L ls => exact harch.2 (by simp [hnil])
  have hout : m.output_size = m2.output_size := by rw [← hmos, ← h2os, houtf]
  simp [archOf, hin, hout, hsizes]

/-! ## Lemmas about the training-loop trace -/

lemma flatTrace_append (s a b : Nat) :
    flatTrace s (a + b) = flatTrace s a ++ flatTrace (s + a) b := by
  induction a generalizing s with
  | zero => simp [flatTrace]
  | succ a ih =>
    rw [show a + 1 + b = (a + b) + 1 by omega]
    rw [flatTrace, flatTrace, ih (s + 1)]
    simp [show s + 1 + a = s + (a + 1) by omega]

lemma epochTrace_eq_flat (base n : Nat) : epochTrace base n = flatTrace base n := by
  induction n with
  | zero => simp [epochTrace, flatTrace]
  | succ n ih =>
    rw [epochTrace, List.range_succ]
    simp only [List.map_append, List.flatten_append]
    rw [show ((List.range n).map (fun i => batchPass (base + i))).flatten
        = epochTrace base n from rfl]
    rw [ih, flatTrace_append base n 1]
    simp [flatTrace]

lemma trainTrace_eq_flat (epochs n : Nat) : trainTrace epochs n = flatTrace 0 (epochs * n) := by
  induction epochs with
  | zero => simp [trainTrace, flatTrace]
  | succ e ih =>
    rw [trainTrace, List.range_succ]
    simp only [List.map_append, List.flatten_append, List.map_cons, List.map_nil,
      List.flatten_cons, List.flatten_nil, List.append_nil]
    rw [show ((List.range e).map (fun i => epochTrace (i * n) n)).flatten
        = trainTrace e n from rfl]
    rw [ih, epochTrace_eq_flat, show (e + 1) * n = e * n + n by ring,
        flatTrace_append 0 (e * n) n]
    simp

lemma flatTrace_length (s m : Nat) : (flatTrace s m).length = 7 * m := by
  induction m generalizing s with
  | zero => rfl
  | succ m ih =>
    rw [flatTrace]
    simp [batchPass, ih]
    omega

lemma flatTrace_getElem (s m k j : Nat) (hk : k < m) (hj : j < 7) :
    (flatTrace s m)[7 * k + j]? = (batchPass (s + k))[j]? := by
  induction m generalizing s k with
  | zero => omega
  | succ m ih =>
    rw [flatTrace]
    cases k with
    | zero =>
      rw [List.getElem?_append_left (by simp [batchPass]; omega)]
      simp
    | succ k =>
      rw [List.getElem?_append_right (by simp [batchPass]; omega)]
      rw [show 7 * (k + 1) + j - (batchPass s).length = 7 * k + j by simp [batchPass]; omega]
      rw [ih (s + 1) k (by omega)]
      rw [show s + 1 + k = s + (k + 1) by omega]

lemma flatTrace_getElem_none (s m i : Nat) (h : 7 * m ≤ i) :
    (flatTrace s m)[i]? = none := by
  rw [List.getElem?_eq_none]
  rw [flatTrace_length]
  exact h

lemma batchPass_step_pos (b j : Nat) (h : (batchPass b)[j]? = some Event.step) : j = 5 := by
  rcases j with _ | _ | _ | _ | _ | _ | _ | j
  · simp [batchPass] at h
  · simp [batchPass] at h
  · simp [batchPass] at h
  · simp [batchPass] at h
  · simp [batchPass] at h
  · omega
  · simp [batchPass] at h
  · simp [batchPass] at h

lemma flatTrace_step_mod (s m i : Nat) (h : (flatTrace s m)[i]? = some Event.step) :
    i % 7 = 5 := by
  have hlt : i < 7 * m := by
    by_contra hge
    rw [flatTrace_getElem_none s m i (by omega)] at h
    simp at h
  have hdecomp : 7 * (i / 7) + i % 7 = i := by omega
  rw [← hdecomp, flatTrace_getElem s m (i / 7) (i % 7) (by omega) (by omega)] at h
  exact batchPass_step_pos _ _ h

lemma execTrace_append (st : OptState) (l1 l2 : List Event) :
    execTrace st (l1 ++ l2) = execTrace (execTrace st l1) l2 := by
  simp [execTrace, List.foldl_append]

lemma execTrace_batchPass (st : OptState) (b : Nat) :
    execTrace st (batchPass b) = ⟨[b], st.applied ++ [[b]]⟩ := rfl

lemma execTrace_flat_applied (m : Nat) :
    ∀ (s : Nat) (st : OptState),
      (execTrace st (flatTrace s m)).applied
        = st.applied ++ (List.range' s m).map (fun k => [k]) := by
  induction m with
  | zero => intro s st; simp [flatTrace, execTrace]
  | succ m ih =>
    intro s st
    rw [flatTrace, execTrace_append, execTrace_batchPass, ih (s + 1)]
    rw [List.range'_succ]
    simp

/-! ## Evaluating window factors over constant data -/

lemma foldr_add_const (c x : ℚ) :
    ∀ l : List Nat, (l.map (fun _ => c)).foldr (fun a b => a + b) x = l.length * c + x := by
  intro l
  induction l with
  | nil => simp
  | cons a l ih =>
    simp only [List.map_cons, List.foldr_cons, ih, List.length_cons]
    push_cast
    ring

lemma windowSum_const (c : ℚ) (d w : Nat) : windowSum (fun _ => c) d w = w * c := by
  rw [windowSum, foldr_add_const]
  simp

/-! ## The claims -/

/-- C2 counterexample: the claim that no code contributed by this repository
constructs or raises an error itself is false — the repository's own
`choose_loader`, applied to the column `sentiment`, constructs and raises
its own `Exception('Column not in USEquityPricing')`. -/
theorem claim2_cex :
    choose_loader "sentiment" = Except.error "Column not in USEquityPricing" := by rfl

/-- C2 (amended): all errors raised while the notebooks run come from the
third-party libraries, except in `choose_loader`: the repository code itself
raises `Exception('Column not in USEquityPricing')`, and does so exactly
when its column argument is not in `USEquityPricing.columns`; that is the
only error `choose_loader` ever raises. -/
theorem claim2_repo_error (c : String) :
    (choose_loader c = Except.error "Column not in USEquityPricing" ↔ c ∉ pricingColumns) ∧
    ∀ e, choose_loader c = Except.error e → e = "Column not in USEquityPricing" := by
  unfold choose_loader
  by_cases h : c ∈ pricingColumns <;> simp [h]

/-- C2 witness: `claim2_repo_error` evaluated at the concrete column
`sentiment`, which is not a pricing column. -/
theorem claim2_repo_error_witness :
    ("sentiment" ∉ pricingColumns) ∧
      choose_loader "sentiment" = Except.error "Column not in USEquityPricing" :=
  ⟨by decide, (claim2_repo_error "sentiment").1.mpr (by decide)⟩

/-- C9: `choose_loader` returns the pricing loader exactly for the columns
of `USEquityPricing`, never returns any other loader, and raises an
exception on every other column. -/
theorem claim9_choose_loader (c : String) :
    (choose_loader c = Except.ok Loader.pricing ↔ c ∈ pricingColumns) ∧
    (∀ l, choose_loader c = Except.ok l → l = Loader.pricing) ∧
    (isOkE (choose_loader c) = false ↔ c ∉ pricingColumns) := by
  unfold choose_loader
  by_cases h : c ∈ pricingColumns <;> simp [h, isOkE]

/-- C9 witness: `claim9_choose_loader` evaluated at the pricing column
`close`. -/
theorem claim9_choose_loader_witness :
    ("close" ∈ pricingColumns) ∧ choose_loader "close" = Except.ok Loader.pricing :=
  ⟨by decide, (claim9_choose_loader "close").1.mpr (by decide)⟩

/-- C4: `pipeline.add` under a name already in use raises the
duplicate-column `KeyError`, while `pipeline.add` under a fresh name
succeeds, appends the new column, and leaves every previously added column
in place. -/
theorem claim4_pipeline_add (p : Pipeline) (t : PipeTerm) (nm : String) :
    (nm ∈ p.columns.map Prod.fst →
      p.add t nm false = Except.error "Column already exists.") ∧
    (nm ∉ p.columns.map Prod.fst →
      p.add t nm false = Except.ok { p with columns := p.columns ++ [(nm, t)] } ∧
      ∀ k v, (k, v) ∈ p.columns → (k, v) ∈ p.columns ++ [(nm, t)]) := by
  constructor
  · intro h
    simp [Pipeline.add, h]
  · intro h
    refine ⟨by simp [Pipeline.add, h], ?_⟩
    intro k v hkv
    exact List.mem_append_left _ hkv

/-- C4 witness: `claim4_pipeline_add` at the notebook's concrete pipeline:
re-adding `percent_difference` under the already-used name `custom factor`
raises the duplicate-column error, and adding the daily-returns factor under
the fresh name `daily return` succeeds. -/
theorem claim4_pipeline_add_witness :
    ("custom factor" ∈ pipeExample.columns.map Prod.fst) ∧
    (pipeExample.add (PipeTerm.factorT percent_difference) "custom factor" false
      = Except.error "Column already exists.") ∧
    ("daily return" ∉ pipeExample.columns.map Prod.fst) ∧
    (pipeExample.add (PipeTerm.factorT daily_ret) "daily return" false
      = Except.ok { pipeExample with
          columns := pipeExample.columns ++ [("daily return", PipeTerm.factorT daily_ret)] }) :=
  ⟨by decide,
   (claim4_pipeline_add pipeExample (PipeTerm.factorT percent_difference) "custom factor").1
     (by decide),
   by decide,
   ((claim4_pipeline_add pipeExample (PipeTerm.factorT daily_ret) "daily return").2
     (by decide)).1⟩

/-- C5: the checkpoint dictionary built before saving contains exactly the
four keys `input_size`, `output_size`, `hidden_layers` and `state_dict`; the
hidden sizes are taken from the model's hidden layers
(`[each.out_features for each in model.hidden_layers]`), the state dict is
the model's dictionary of named weight/bias tensors (its keys are exactly
the model's parameter names), and the recorded input and output sizes are
the manually recorded `784` and `10`. -/
theorem claim5_checkpoint_contents (m : Network) :
    (mkCheckpoint m).map Prod.fst = ["input_size", "output_size", "hidden_layers", "state_dict"] ∧
    cpLookup "input_size" (mkCheckpoint m) = some (CPValue.natVal 784) ∧
    cpLookup "output_size" (mkCheckpoint m) = some (CPValue.natVal 10) ∧
    cpLookup "hidden_layers" (mkCheckpoint m)
      = some (CPValue.listVal (m.hidden_layers.map (fun L => L.out_features))) ∧
    cpLookup "state_dict" (mkCheckpoint m) = some (CPValue.sdVal m.state_dict) ∧
    m.state_dict.map Prod.fst = m.paramKeys :=
  ⟨rfl, rfl, rfl, rfl, rfl, state_dict_keys m⟩

/-- C10: the custom filter `tradable_asset` is the conjunction
`top_20 & above_30`, and it holds for an asset on a session exactly when the
asset is among the top 20 of the universe by 30-day average dollar volume
and its latest closing price exceeds 30. -/
theorem claim10_tradable_asset (env : Market) (a : String) (d : Nat) :
    (evalFilter env tradable_asset a d
      = (evalFilter env top_20 a d && evalFilter env above_30 a d)) ∧
    (evalFilter env tradable_asset a d = true ↔
      (amongTop env 20 (fun b => avgDollarVolume env 30 b d) a ∧ 30 < env.close a d)) := by
  refine ⟨rfl, ?_⟩
  simp [tradable_asset, top_20, above_30, evalFilter, evalFactor, amongTop,
    avgDollarVolume, Bool.and_eq_true, and_assoc]

/-- C10 witness: on the concrete one-asset market, `tradable_asset` holds for
`AAPL` (it is in the top 20 by dollar volume and its price 100 exceeds 30),
via `claim10_tradable_asset`. -/
theorem claim10_tradable_asset_witness :
    evalFilter market1 tradable_asset "AAPL" 0 = true :=
  ((claim10_tradable_asset market1 "AAPL" 0).2).mpr
    ⟨⟨by simp [market1], by simp [market1]⟩, by norm_num [market1]⟩

set_option maxRecDepth 40000 in
/-- C1 counterexample: the round trip does not hold for every trained model.
The well-formed model `fcNetwork 3 10 [2]` (input size 3) is checkpointed
with the hardcoded metadata `input_size = 784`, so `load_checkpoint` rebuilds
a 784-input network and the state-dict load raises a shape mismatch instead
of returning the original model. -/
theorem claim1_roundtrip_cex :
    cexModel.wfb = true ∧
      isOkE (load_checkpoint (torch_save (mkCheckpoint cexModel))) = false := by
  exact ⟨by decide, by rfl⟩

/-- C1 (amended): for every trained model whose input size is 784 and output
size is 10 — the sizes the checkpoint cell records manually — building the
checkpoint dictionary from it, saving it, and passing the saved file to
`load_checkpoint` returns a model whose architecture and parameter tensors
are equal to those of the original model (indeed the model itself): save
followed by `load_checkpoint` is a round trip. -/
theorem claim1_roundtrip (m : Network) (hwf : m.wfb = true)
    (hin : m.input_size = 784) (hout : m.output_size = 10) :
    load_checkpoint (torch_save (mkCheckpoint m)) = Except.ok m := by
  have h := load_state_dict_roundtrip m hwf
  rw [hin, hout] at h
  exact h

set_option maxRecDepth 40000 in
/-- C1 witness: `claim1_roundtrip` at the concrete well-formed model
`fcNetwork 784 10 [2]`. -/
theorem claim1_roundtrip_witness :
    wnet784.wfb = true ∧
      load_checkpoint (torch_save (mkCheckpoint wnet784)) = Except.ok wnet784 :=
  ⟨by decide, claim1_roundtrip wnet784 (by decide) rfl rfl⟩

/-- C3: loading the state dict saved from the `[512, 256, 128]` model into
the `[400, 200, 100]` model raises the shape-mismatch `RuntimeError` listing
exactly the seven mismatched parameters (as in the notebook output) and does
not complete the load; and in general a state-dict load between well-formed
models completes successfully only when the receiving model's architecture
(input size, output size, per-layer hidden sizes) is exactly the checkpoint
architecture. -/
theorem claim3_load_mismatch :
    (model400.load_state_dict model512.state_dict
      = Except.error
          [LoadError.sizeMismatch (ParamKey.hidden 0 true),
           LoadError.sizeMismatch (ParamKey.hidden 0 false),
           LoadError.sizeMismatch (ParamKey.hidden 1 true),
           LoadError.sizeMismatch (ParamKey.hidden 1 false),
           LoadError.sizeMismatch (ParamKey.hidden 2 true),
           LoadError.sizeMismatch (ParamKey.hidden 2 false),
           LoadError.sizeMismatch (ParamKey.output true)]) ∧
    ∀ m m2 : Network, m.wfb = true → m2.wfb = true →
      isOkE (m.load_state_dict m2.state_dict) = true → archOf m = archOf m2 :=
  ⟨by rfl, load_ok_arch⟩

/-- C3 witness: `claim3_load_mismatch` applied to a small well-formed model
loading its own state dict, which succeeds and has (trivially) the same
architecture on both sides. -/
theorem claim3_load_mismatch_witness :
    wnetA.wfb = true ∧
      isOkE (wnetA.load_state_dict wnetA.state_dict) = true ∧
      archOf wnetA = archOf wnetA :=
  ⟨by decide, by decide,
    claim3_load_mismatch.2 wnetA wnetA (by decide) (by decide) (by decide)⟩

/-- C6: in the training loop, every batch pass performs, in order, the
forward pass, the loss computation, the backward pass, and then the
optimizer step; every optimizer step in the whole trace sits at offset 5 of
a batch pass, immediately after that pass's backward pass at offset 4, so no
optimizer step occurs before its batch's backward pass. -/
theorem claim6_training_order (epochs n k : Nat) (hk : k < epochs * n) :
    (trainTrace epochs n)[7 * k + 2]? = some (Event.forward k) ∧
    (trainTrace epochs n)[7 * k + 3]? = some (Event.loss k) ∧
    (trainTrace epochs n)[7 * k + 4]? = some (Event.backward k) ∧
    (trainTrace epochs n)[7 * k + 5]? = some Event.step ∧
    ∀ i, (trainTrace epochs n)[i]? = some Event.step → i % 7 = 5 := by
  rw [trainTrace_eq_flat]
  refine ⟨?_, ?_, ?_, ?_, fun i h => flatTrace_step_mod 0 (epochs * n) i h⟩
  · rw [flatTrace_getElem 0 (epochs * n) k 2 hk (by omega)]
    simp [batchPass]
  · rw [flatTrace_getElem 0 (epochs * n) k 3 hk (by omega)]
    simp [batchPass]
  · rw [flatTrace_getElem 0 (epochs * n) k 4 hk (by omega)]
    simp [batchPass]
  · rw [flatTrace_getElem 0 (epochs * n) k 5 hk (by omega)]
    simp [batchPass]

/-- C6 witness: `claim6_training_order` at one epoch of one batch. -/
theorem claim6_training_order_witness :
    (0 < 1 * 1) ∧
      ((trainTrace 1 1)[2]? = some (Event.forward 0) ∧
       (trainTrace 1 1)[3]? = some (Event.loss 0) ∧
       (trainTrace 1 1)[4]? = some (Event.backward 0) ∧
       (trainTrace 1 1)[5]? = some Event.step ∧
       ∀ i, (trainTrace 1 1)[i]? = some Event.step → i % 7 = 5) :=
  ⟨by decide, by simpa using claim6_training_order 1 1 0 (by decide)⟩

/-- C8: in every iteration of the training loop, `optimizer.zero_grad()`
(offset 1 of the batch pass) runs before that iteration's backward pass
(offset 4), and consequently the gradient set consumed by the k-th optimizer
step is exactly the singleton of the k-th iteration's backward pass — no
gradients from earlier batches accumulate into any step. -/
theorem claim8_zero_grad_isolation (epochs n k : Nat) (hk : k < epochs * n) :
    (trainTrace epochs n)[7 * k + 1]? = some Event.zero_grad ∧
    (trainTrace epochs n)[7 * k + 4]? = some (Event.backward k) ∧
    (execTrace ⟨[], []⟩ (trainTrace epochs n)).applied[k]? = some [k] := by
  rw [trainTrace_eq_flat]
  refine ⟨?_, ?_, ?_⟩
  · rw [flatTrace_getElem 0 (epochs * n) k 1 hk (by omega)]
    simp [batchPass]
  · rw [flatTrace_getElem 0 (epochs * n) k 4 hk (by omega)]
    simp [batchPass]
  · rw [execTrace_flat_applied]
    simp only [List.nil_append, List.getElem?_map]
    rw [List.getElem?_range' _ _ hk]
    simp

/-- C8 witness: `claim8_zero_grad_isolation` at one epoch of one batch. -/
theorem claim8_zero_grad_isolation_witness :
    (0 < 1 * 1) ∧
      ((trainTrace 1 1)[1]? = some Event.zero_grad ∧
       (trainTrace 1 1)[4]? = some (Event.backward 0) ∧
       (execTrace ⟨[], []⟩ (trainTrace 1 1)).applied[0]? = some [0]) :=
  ⟨by decide, by simpa using claim8_zero_grad_isolation 1 1 0 (by decide)⟩

/-- C7: when the pipeline carries the boolean screen
`AverageDollarVolume(window_length = 60) > 50000`, every row of the tabular
date-by-asset output of `engine.run_pipeline` names an asset of the universe
whose 60-day average dollar volume on that row's date exceeds 50000 — every
output row satisfies the screen on its date. -/
theorem claim7_screen (env : Market) (p : Pipeline) (startd endd : Nat) (row : Row)
    (hscreen : p.screen = some universeScreen)
    (hrow : row ∈ run_pipeline env p startd endd) :
    row.asset ∈ env.assets ∧
      50000 < evalFactor env (FactorExpr.averageDollarVolume 60) row.asset row.date := by
  rw [run_pipeline] at hrow
  simp only [List.mem_flatten, List.mem_map] at hrow
  obtain ⟨block, ⟨d, hd, rfl⟩, hrowb⟩ := hrow
  simp only [List.mem_map] at hrowb
  obtain ⟨a, ha, rfl⟩ := hrowb
  rw [List.mem_filter] at ha
  obtain ⟨hamem, hpass⟩ := ha
  rw [hscreen] at hpass
  simp only [passesScreen, universeScreen, evalFilter, decide_eq_true_eq] at hpass
  exact ⟨hamem, hpass⟩

/-- C7 witness: `claim7_screen` on the concrete one-asset market, where the
60-day average dollar volume is 100000 and the single output row indeed
satisfies the screen. -/
theorem claim7_screen_witness :
    (pipelineScreened.screen = some universeScreen) ∧
      (row1 ∈ run_pipeline market1 pipelineScreened 0 0) ∧
      (row1.asset ∈ market1.assets ∧
        50000 < evalFactor market1 (FactorExpr.averageDollarVolume 60) row1.asset row1.date) := by
  have hval : evalFactor market1 (FactorExpr.averageDollarVolume 60) "AAPL" 0 = 100000 := by
    simp only [evalFactor]
    rw [show (fun t => market1.close "AAPL" t * market1.volume "AAPL" t)
        = (fun _ => (100 : ℚ) * 1000) from rfl]
    rw [windowSum_const]
    norm_num
  have hpass : evalFilter market1 universeScreen "AAPL" 0 = true := by
    simp only [universeScreen, evalFilter, hval, decide_eq_true_eq]
    norm_num
  have hassets : market1.assets = ["AAPL"] := rfl
  have hmem : row1 ∈ run_pipeline market1 pipelineScreened 0 0 := by
    simp [run_pipeline, pipelineScreened, passesScreen, row1, hpass, hassets,
      List.range'_one]
  exact ⟨rfl, hmem, claim7_screen market1 pipelineScreened 0 0 row1 rfl hmem⟩

end AIFT
